import Mathlib

/-!
Shallow embedding of the core progression / session-statistics logic of the
Study With focus-timer application (files `src/study_with/session_manager.py`
and `src/study_with/progression_manager.py`), together with theorems checking
the natural-language specification against it.

Modelling conventions:
* Python ints are `Int` (or `Nat` where the source value is a count starting
  at 0 and only incremented).
* Python floats are `ℚ`; `round(x, n)` is `pyRound x n` (round half to even,
  Python's rounding mode).
* Python `//` on ints is `Int.fdiv` (floor division).
* Calls to `random.random()` / `random.uniform` are passed in as explicit
  arguments, so every operation is a pure function of state and random draws.
* Calendar dates are day numbers (`Int`); "today" (`datetime.now().date()`)
  is an explicit argument of `getStatistics`.
* File persistence (`_save_state`) does not change in-memory state and is
  dropped; the persisted JSON shape is modelled explicitly for the
  save/load round-trip (`SavedState`, `saveState`, `loadState`).
-/

namespace StudyWith

/- The Batteries `Rat` arithmetic operations are `@[irreducible]`, which
blocks `decide`-style evaluation of concrete rational computations; make
them semireducible for this development. -/
attribute [local semireducible] Rat.add Rat.mul Rat.sub Rat.inv

/-- Python `round` to an integer: round half to even (banker's rounding). -/
def pyRoundInt (q : ℚ) : Int :=
  let f := Rat.floor q
  let r := q - (f : ℚ)
  if r < 1/2 then f
  else if 1/2 < r then f + 1
  else if f % 2 = 0 then f else f + 1

/-- Python `round(q, p)`: round to `p` decimal digits, half to even. -/
def pyRound (q : ℚ) (p : ℕ) : ℚ :=
  (pyRoundInt (q * 10 ^ p) : ℚ) / 10 ^ p

/-- Digits of a natural number, least significant first, with a comma
inserted after every third digit (helper for Python's `,` format spec). -/
def revGroup : List Char → ℕ → List Char
  | [], _ => []
  | c :: rest, k =>
    let tail := revGroup rest (k + 1)
    if (k + 1) % 3 = 0 ∧ rest ≠ [] then c :: ',' :: tail else c :: tail

/-- Python `f"{n:,}"` for a natural number: decimal digits grouped in
threes with commas. -/
def commaNat (n : ℕ) : String :=
  String.mk (List.reverse (revGroup (List.reverse (Nat.repr n).data) 0))

/-- Python `f"{score:,}"` for an int (negative numbers keep the sign in
front of the grouped digits). -/
def commaFmt (i : Int) : String :=
  if i < 0 then "-" ++ commaNat i.natAbs else commaNat i.natAbs

/-- Result of `SessionManager._calculate_rank`: the `{"rank": ..,
"display": ..}` dict. -/
structure RankInfo where
  rank : String
  display : String
  deriving DecidableEq, Repr

/-- `SessionManager._calculate_rank` (session_manager.py lines 170-189). -/
def calculateRank (score : Int) : RankInfo :=
  if score < 100 then ⟨"BRONZE", "브론즈"⟩
  else if score < 300 then ⟨"SILVER", "실버"⟩
  else if score < 600 then ⟨"GOLD", "골드"⟩
  else if score < 1000 then ⟨"PLATINUM", "플래티넘"⟩
  else if score < 2000 then ⟨"DIAMOND", "다이아몬드"⟩
  else if score < 4000 then ⟨"MASTER", "마스터"⟩
  else if score < 8000 then ⟨"GRANDMASTER", "그랜드마스터"⟩
  else if score < 15000 then ⟨"CHALLENGER", "챌린저"⟩
  else ⟨"LEGEND", commaFmt score ++ "점"⟩

/-- One entry of `SessionManager.sessions` (the dict built by
`add_session`), restricted to the fields `get_statistics` reads.  The
`date` field is a calendar day number; `none` models a record whose
`date` key is missing or falsy (filtered out by
`if s.get("date")` on line 110). -/
structure Session where
  total_focus_minutes : Int
  total_cycles : Int
  completed_cycles : Int
  date : Option Int
  deriving DecidableEq, Repr

/-- The dict returned by `SessionManager.get_statistics`. -/
structure Stats where
  total_sessions : ℕ
  total_focus_minutes : Int
  total_focus_hours : ℚ
  total_cycles : Int
  completed_sessions : ℕ
  current_streak : ℕ
  longest_streak : ℕ
  total_score : Int
  rank : String
  rank_display : String
  deriving DecidableEq, Repr

/-- The `while True` walk of session_manager.py lines 124-133: from
`check`, count while the day is present in `dates`; a missing day that is
exactly `today` is skipped without counting.  `fuel` bounds the number of
iterations; `getStatistics` passes `dates.length + 2`, which exceeds the
number of iterations the loop can make (each counted day is a distinct
member of `dates`, and the skip branch fires at most once). -/
def streakLoop (dates : List Int) (today : Int) : ℕ → Int → ℕ → ℕ
  | 0, _, streak => streak
  | fuel + 1, check, streak =>
    if check ∈ dates then streakLoop dates today fuel (check - 1) (streak + 1)
    else if check = today then streakLoop dates today fuel (check - 1) streak
    else streak

/-- The `for i in range(1, len(date_objs))` fold of session_manager.py
lines 136-143: arguments are the remaining dates, the previous date, the
current run length `temp` and the best run length so far. -/
def longestLoop : List Int → Int → ℕ → ℕ → ℕ
  | [], _, _, longest => longest
  | d :: rest, prev, temp, longest =>
    if d - prev = 1 then longestLoop rest d (temp + 1) (max longest (temp + 1))
    else longestLoop rest d 1 longest

/-- `longest_streak` as computed on session_manager.py lines 136-143
(initial `longest = temp = 1` for a nonempty date list). -/
def codeLongest : List Int → ℕ
  | [] => 0
  | d :: rest => longestLoop rest d 1 1

/-- `sorted(set(s.get("date") for s in self.sessions if s.get("date")))`
(session_manager.py line 110): distinct dates, ascending. -/
def sessionDates (sessions : List Session) : List Int :=
  (List.filterMap Session.date sessions).dedup.insertionSort (· ≤ ·)

/-- `SessionManager.get_statistics` (session_manager.py lines 86-168);
`today` stands for `datetime.now().date()`. -/
def getStatistics (sessions : List Session) (today : Int) : Stats :=
  if sessions = [] then
    { total_sessions := 0
      total_focus_minutes := 0
      total_focus_hours := 0
      total_cycles := 0
      completed_sessions := 0
      current_streak := 0
      longest_streak := 0
      total_score := 0
      rank := "브론즈"
      rank_display := "브론즈" }
  else
    let total_sessions := sessions.length
    let total_focus_minutes := (sessions.map Session.total_focus_minutes).sum
    let total_focus_hours := (total_focus_minutes : ℚ) / 60
    let total_cycles := (sessions.map Session.completed_cycles).sum
    let completed_sessions :=
      (sessions.filter (fun s => s.completed_cycles = s.total_cycles)).length
    let dates := sessionDates sessions
    let current_streak :=
      if dates = [] then 0 else streakLoop dates today (dates.length + 2) today 0
    let longest_streak := if dates = [] then 0 else codeLongest dates
    let time_score := total_focus_minutes
    let session_score := (completed_sessions : Int) * 10
    let streak_bonus := (current_streak : Int) * 5
    let total_score := time_score + session_score + streak_bonus
    let rank_info := calculateRank total_score
    { total_sessions := total_sessions
      total_focus_minutes := total_focus_minutes
      total_focus_hours := pyRound total_focus_hours 1
      total_cycles := total_cycles
      completed_sessions := completed_sessions
      current_streak := current_streak
      longest_streak := longest_streak
      total_score := total_score
      rank := rank_info.rank
      rank_display := rank_info.display }

/-- Modelled from the spec: "`current_streak` walks backward from today,
counting while each preceding day is present, stopping at the first
missing day".  `specCountBack s d` is the length of the run of
consecutive days `d, d-1, d-2, ...` all present in `s`. -/
def specCountBack (s : Finset Int) (d : Int) : ℕ :=
  if h : d ∈ s then 1 + specCountBack s (d - 1) else 0
termination_by (s.filter (fun x => x ≤ d)).card
decreasing_by
  have hsub : s.filter (fun x => x ≤ d - 1) = (s.filter (fun x => x ≤ d)).erase d := by
    ext x
    simp only [Finset.mem_filter, Finset.mem_erase]
    constructor
    · intro hx
      exact ⟨by omega, hx.1, by omega⟩
    · intro hx
      exact ⟨hx.2.1, by omega⟩
  rw [hsub]
  exact Finset.card_erase_lt_of_mem (Finset.mem_filter.mpr ⟨h, le_refl d⟩)

/-- Modelled from the spec: the full backward walk from `today`; today
itself may be absent without breaking the walk, but then the walk
continues from yesterday. -/
def specCurrentStreak (dates : List Int) (today : Int) : ℕ :=
  if today ∈ dates then 1 + specCountBack dates.toFinset (today - 1)
  else specCountBack dates.toFinset (today - 1)

/-- Modelled from the spec: split a date list into maximal runs of
consecutive values and record each run's length (arguments: remaining
dates, previous date, current run length). -/
def specRunLens : List Int → Int → ℕ → List ℕ
  | [], _, n => [n]
  | d :: rest, prev, n =>
    if d = prev + 1 then specRunLens rest d (n + 1)
    else n :: specRunLens rest d 1

/-- Modelled from the spec: "`longest_streak` is the maximum run length
of consecutive calendar dates in the sorted distinct-date set". -/
def specLongestStreak : List Int → ℕ
  | [] => 0
  | d :: rest => (specRunLens rest d 1).foldr max 0

/-- `Equipment` dataclass (progression_manager.py lines 12-34). -/
structure Equipment where
  slot : String
  name : String
  base_power : Int
  enhancement : Int
  deriving DecidableEq, Repr

/-- `Equipment.power`: `round(base_power * (1 + enhancement * 0.2), 2)`. -/
def Equipment.power (e : Equipment) : ℚ :=
  pyRound ((e.base_power : ℚ) * (1 + (e.enhancement : ℚ) * (2/10))) 2

/-- `ProgressionState` (progression_manager.py lines 37-50).  In every
reachable state the inventory dict holds exactly the keys `book`,
`pencil`, `laptop` (`_default_inventory` creates them and `_load_state`
merges onto them), so it is modelled as three fields. -/
structure ProgressionState where
  points : Int
  stage : Int
  scrolls : Int
  book : Equipment
  pencil : Equipment
  laptop : Equipment
  deriving DecidableEq, Repr

/-- `self.state.inventory.get(slot)` over the three fixed keys. -/
def lookupInv (st : ProgressionState) (slot : String) : Option Equipment :=
  if slot = "book" then some st.book
  else if slot = "pencil" then some st.pencil
  else if slot = "laptop" then some st.laptop
  else none

/-- Write back the equipment at a known slot key. -/
def setInv (st : ProgressionState) (slot : String) (e : Equipment) : ProgressionState :=
  if slot = "book" then { st with book := e }
  else if slot = "pencil" then { st with pencil := e }
  else if slot = "laptop" then { st with laptop := e }
  else st

/-- One entry of the battle log (progression_manager.py lines 290-296). -/
structure HitLog where
  hit : ℕ
  damage : ℚ
  factor : ℚ
  deriving DecidableEq, Repr

/-- `self.battle_state` dict (progression_manager.py lines 266-273). -/
structure BattleState where
  target_stage : Int
  hp : Int
  remaining_hp : ℚ
  hits_used : ℕ
  limit : ℕ
  log : List HitLog
  deriving DecidableEq, Repr

/-- In-memory state of a `ProgressionManager`: persisted state plus the
ephemeral `battle_state` (`None` ⇔ `none`). -/
structure Manager where
  state : ProgressionState
  battle : Option BattleState
  deriving DecidableEq, Repr

/-- `ProgressionManager._default_inventory` (lines 71-76). -/
def defaultInventory : Equipment × Equipment × Equipment :=
  (⟨"book", "책", 10, 0⟩, ⟨"pencil", "연필", 7, 0⟩, ⟨"laptop", "노트북", 15, 0⟩)

/-- The fresh-install state built by `_load_state` when no file exists
(lines 98-103); `battle_state` starts as `None` (line 69). -/
def initManager : Manager :=
  { state :=
      { points := 0, stage := 1, scrolls := 0
        book := defaultInventory.1
        pencil := defaultInventory.2.1
        laptop := defaultInventory.2.2 }
    battle := none }

/-- `ProgressionManager._success_rate` (lines 159-164):
`max(0.9 - enhancement_level * 0.08, 0.15)`. -/
def successRate (enhancement_level : Int) : ℚ :=
  max (9/10 - (enhancement_level : ℚ) * (8/100)) (15/100)

/-- `ProgressionManager._downgrade_rate` (lines 166-174). -/
def downgradeRate (enhancement_level : Int) : ℚ :=
  if enhancement_level ≤ 1 then 0
  else min ((3/100) * ((enhancement_level : ℚ) - 1)) (20/100)

/-- `ProgressionManager.add_points` (lines 112-118). -/
def addPoints (amount : Int) (m : Manager) : Manager × Bool :=
  if amount ≤ 0 then (m, false)
  else ({ m with state := { m.state with points := m.state.points + amount } }, true)

/-- `ProgressionManager.grant_points_from_session` (lines 121-143). -/
def grantPointsFromSession (total_focus_minutes completed_cycles focus_duration : Int)
    (m : Manager) : Manager × Int :=
  if total_focus_minutes ≤ 0 ∧ completed_cycles ≤ 0 then (m, 0)
  else
    let focus_points := max (total_focus_minutes.fdiv 5) 0
    let cycle_points := max completed_cycles 0 * 3
    let duration_bonus := max completed_cycles 0 * max (focus_duration.fdiv 25) 0
    let earned := focus_points + cycle_points + duration_bonus
    ({ m with state := { m.state with points := m.state.points + earned } }, earned)

/-- `ProgressionManager.buy_scroll` (lines 145-156). -/
def buyScroll (quantity cost_per_scroll : Int) (m : Manager) : Manager × Bool :=
  if quantity ≤ 0 then (m, false)
  else
    let total_cost := quantity * cost_per_scroll
    if m.state.points < total_cost then (m, false)
    else
      ({ m with state :=
          { m.state with
            points := m.state.points - total_cost
            scrolls := m.state.scrolls + quantity } }, true)

/-- `EnhancementResult` dataclass (lines 53-60); `success_rate` is the
percentage rounded to one decimal. -/
structure EnhancementResult where
  slot : String
  success : Bool
  before_level : Int
  after_level : Int
  success_rate : ℚ
  downgraded : Bool
  deriving DecidableEq, Repr

/-- `ProgressionManager.enhance` (lines 186-217).  `r1` is the success
roll `random.random()` and `r2` the downgrade roll; the code draws `r2`
only on failure with `enhancement > 0`, which does not affect the
outcome of a pure model. -/
def enhance (slot : String) (r1 r2 : ℚ) (m : Manager) :
    Manager × Option EnhancementResult :=
  match lookupInv m.state slot with
  | none => (m, none)
  | some item =>
    if m.state.scrolls ≤ 0 then (m, none)
    else
      let before := item.enhancement
      let rate := successRate before
      let downgrade_rate := downgradeRate before
      let success := r1 ≤ rate
      let item1 :=
        if success then { item with enhancement := item.enhancement + 1 }
        else if 0 < item.enhancement ∧ r2 ≤ downgrade_rate then
          { item with enhancement := item.enhancement - 1 }
        else item
      let downgraded := ¬ success ∧ 0 < item.enhancement ∧ r2 ≤ downgrade_rate
      let st1 := setInv { m.state with scrolls := m.state.scrolls - 1 } slot item1
      ({ m with state := st1 },
        some
          { slot := slot
            success := success
            before_level := before
            after_level := item1.enhancement
            success_rate := pyRound (rate * 100) 1
            downgraded := downgraded })

/-- `ProgressionManager._power_requirement` (lines 220-228). -/
def powerRequirement (next_stage : Int) : Int :=
  if next_stage ≤ 2 then 30 else 30 + (next_stage - 2) * 10

/-- `ProgressionManager._stage_hp` (lines 230-235). -/
def stageHp (next_stage : Int) : Int :=
  powerRequirement next_stage * 10

/-- `ProgressionManager.total_power` (lines 237-238). -/
def totalPower (st : ProgressionState) : ℚ :=
  pyRound (st.book.power + st.pencil.power + st.laptop.power) 2

/-- The `while True` loop of `try_auto_advance` (lines 246-252): advance
while the fixed total power meets the next stage's requirement.  `fuel`
bounds the iterations; the caller passes `tp.ceil.toNat + 1`, enough for
any stage ≥ 1 since the requirement of stage `s + k` grows past `tp`
after at most `tp` advances. -/
def advanceLoop (tp : ℚ) : ℕ → Int → Int
  | 0, s => s
  | fuel + 1, s =>
    if (powerRequirement (s + 1) : ℚ) ≤ tp then advanceLoop tp fuel (s + 1) else s

/-- `ProgressionManager.try_auto_advance` (lines 240-257). -/
def tryAutoAdvance (m : Manager) : Manager × Option Int :=
  let tp := totalPower m.state
  let s1 := advanceLoop tp (tp.ceil.toNat + 1) m.state.stage
  if s1 = m.state.stage then (m, none)
  else ({ m with state := { m.state with stage := s1 } }, some s1)

/-- The battle dict built by `start_stage_battle` (lines 263-273). -/
def freshBattle (st : ProgressionState) : BattleState :=
  let target_stage := st.stage + 1
  let hp := stageHp target_stage
  { target_stage := target_stage
    hp := hp
    remaining_hp := (hp : ℚ)
    hits_used := 0
    limit := 10
    log := [] }

/-- `ProgressionManager.start_stage_battle` (lines 263-274). -/
def startStageBattle (m : Manager) : Manager × BattleState :=
  let b := freshBattle m.state
  ({ m with battle := some b }, b)

/-- Line 281-282 of `hit_stage_battle`: restart the battle when there is
none, or the active one has exhausted its hits or its HP. -/
def ensureBattle (m : Manager) : BattleState :=
  match m.battle with
  | none => freshBattle m.state
  | some b =>
    if b.limit ≤ b.hits_used ∨ b.remaining_hp ≤ 0 then freshBattle m.state else b

/-- The result dict of `hit_stage_battle` (lines 301-313). -/
structure HitResult where
  success : Bool
  finished : Bool
  target_stage : Int
  hp : Int
  remaining_hp : ℚ
  hit_index : ℕ
  hit_damage : ℚ
  factor : ℚ
  total_power : ℚ
  hits_used : ℕ
  limit : ℕ
  deriving DecidableEq, Repr

/-- `ProgressionManager.hit_stage_battle` (lines 276-321).  `f` is the
draw `random.uniform(1 - variance, 1 + variance)`. -/
def hitStageBattle (f : ℚ) (m : Manager) : Manager × HitResult :=
  let b := ensureBattle m
  let tp := totalPower m.state
  let dmg := pyRound (tp * f) 1
  let b1 : BattleState :=
    { b with
      hits_used := b.hits_used + 1
      remaining_hp := b.remaining_hp - dmg
      log := b.log ++ [{ hit := b.hits_used + 1, damage := dmg, factor := pyRound f 3 }] }
  let success := b1.remaining_hp ≤ 0
  let finished := success ∨ b1.limit ≤ b1.hits_used
  let result : HitResult :=
    { success := success
      finished := finished
      target_stage := b1.target_stage
      hp := b1.hp
      remaining_hp := pyRound b1.remaining_hp 1
      hit_index := b1.hits_used
      hit_damage := dmg
      factor := pyRound f 3
      total_power := tp
      hits_used := b1.hits_used
      limit := b1.limit }
  if finished then
    if success then
      ({ state := { m.state with stage := b1.target_stage }, battle := none }, result)
    else ({ state := m.state, battle := none }, result)
  else ({ m with battle := some b1 }, result)

/-- The dict returned by `get_battle_status` (lines 323-340), with
`remaining_hp = none` standing for JSON `null`. -/
structure BattleStatus where
  in_progress : Bool
  target_stage : Int
  hp : Int
  remaining_hp : Option ℚ
  hits_used : ℕ
  limit : ℕ
  deriving DecidableEq, Repr

/-- `ProgressionManager.get_battle_status` (lines 323-340). -/
def getBattleStatus (m : Manager) : BattleStatus :=
  match m.battle with
  | none =>
    { in_progress := false
      target_stage := m.state.stage + 1
      hp := stageHp (m.state.stage + 1)
      remaining_hp := none
      hits_used := 0
      limit := 10 }
  | some b =>
    { in_progress := true
      target_stage := b.target_stage
      hp := b.hp
      remaining_hp := some (pyRound b.remaining_hp 1)
      hits_used := b.hits_used
      limit := b.limit }

/-- One slot of the persisted `inventory` JSON object: any subset of the
four `Equipment` fields may be present (`none` = key absent). -/
structure SavedEquip where
  slot : Option String
  name : Option String
  base_power : Option Int
  enhancement : Option Int
  deriving DecidableEq, Repr

/-- The persisted `progression.json` object: any top-level key and any
inventory slot may be absent. -/
structure SavedState where
  points : Option Int
  stage : Option Int
  scrolls : Option Int
  inv_book : Option SavedEquip
  inv_pencil : Option SavedEquip
  inv_laptop : Option SavedEquip
  deriving DecidableEq, Repr

/-- The empty JSON dict used for an absent inventory slot
(`inventory_raw.get(slot, {})`). -/
def emptySavedEquip : SavedEquip := ⟨none, none, none, none⟩

/-- `{**default_item.to_dict(), **inventory_raw.get(slot, {})}` followed
by `Equipment.from_dict` (progression_manager.py lines 86-88): a field
present in the persisted slot wins over the default. -/
def mergeSlot (default_item : Equipment) (raw : SavedEquip) : Equipment :=
  { slot := raw.slot.getD default_item.slot
    name := raw.name.getD default_item.name
    base_power := raw.base_power.getD default_item.base_power
    enhancement := raw.enhancement.getD default_item.enhancement }

/-- `ProgressionManager._load_state` (lines 78-103) on successfully
parsed JSON `raw`. -/
def loadState (raw : SavedState) : ProgressionState :=
  { points := raw.points.getD 0
    stage := raw.stage.getD 1
    scrolls := raw.scrolls.getD 0
    book := mergeSlot defaultInventory.1 (raw.inv_book.getD emptySavedEquip)
    pencil := mergeSlot defaultInventory.2.1 (raw.inv_pencil.getD emptySavedEquip)
    laptop := mergeSlot defaultInventory.2.2 (raw.inv_laptop.getD emptySavedEquip) }

/-- `ProgressionState.to_dict` as written by `_save_state` (lines 44-50,
105-110): every field of every slot is present. -/
def saveState (st : ProgressionState) : SavedState :=
  { points := some st.points
    stage := some st.stage
    scrolls := some st.scrolls
    inv_book := some ⟨some st.book.slot, some st.book.name,
      some st.book.base_power, some st.book.enhancement⟩
    inv_pencil := some ⟨some st.pencil.slot, some st.pencil.name,
      some st.pencil.base_power, some st.pencil.enhancement⟩
    inv_laptop := some ⟨some st.laptop.slot, some st.laptop.name,
      some st.laptop.base_power, some st.laptop.enhancement⟩ }

/-- A reachable manager built only from the public operations: grant
points, buy 10 scrolls, start a battle against stage 2, enhance the
laptop three times (success rolls 0), auto-advance to stage 3 while the
stage-2 battle stays active, then land 7 hits with damage factor 1
(41 damage each) on the stale battle, leaving it at 13 HP. -/
def c2TraceManager : Manager :=
  let m1 := (addPoints 1000 initManager).1
  let m2 := (buyScroll 10 40 m1).1
  let m3 := (startStageBattle m2).1
  let m4 := (enhance "laptop" 0 1 m3).1
  let m5 := (enhance "laptop" 0 1 m4).1
  let m6 := (enhance "laptop" 0 1 m5).1
  let m7 := (tryAutoAdvance m6).1
  let m8 := (hitStageBattle 1 m7).1
  let m9 := (hitStageBattle 1 m8).1
  let m10 := (hitStageBattle 1 m9).1
  let m11 := (hitStageBattle 1 m10).1
  let m12 := (hitStageBattle 1 m11).1
  let m13 := (hitStageBattle 1 m12).1
  (hitStageBattle 1 m13).1

/-! ## Theorems -/

set_option maxHeartbeats 1600000 in
/-- C1: for every integer score, `_calculate_rank` returns the tier of
the threshold table with inclusive lower and exclusive upper bounds
(BRONZE below 100, SILVER on [100,300), GOLD on [300,600), PLATINUM on
[600,1000), DIAMOND on [1000,2000), MASTER on [2000,4000), GRANDMASTER
on [4000,8000), CHALLENGER on [8000,15000), LEGEND from 15000 up); in
particular 99 ↦ BRONZE, 100 ↦ SILVER, 14999 ↦ CHALLENGER, and every
score ≥ 15000 ↦ LEGEND displayed as the comma-grouped score followed by
"점". -/
theorem C1_rank_threshold_table (score : Int) :
    ((calculateRank score).rank = "BRONZE" ↔ score < 100) ∧
    ((calculateRank score).rank = "SILVER" ↔ 100 ≤ score ∧ score < 300) ∧
    ((calculateRank score).rank = "GOLD" ↔ 300 ≤ score ∧ score < 600) ∧
    ((calculateRank score).rank = "PLATINUM" ↔ 600 ≤ score ∧ score < 1000) ∧
    ((calculateRank score).rank = "DIAMOND" ↔ 1000 ≤ score ∧ score < 2000) ∧
    ((calculateRank score).rank = "MASTER" ↔ 2000 ≤ score ∧ score < 4000) ∧
    ((calculateRank score).rank = "GRANDMASTER" ↔ 4000 ≤ score ∧ score < 8000) ∧
    ((calculateRank score).rank = "CHALLENGER" ↔ 8000 ≤ score ∧ score < 15000) ∧
    ((calculateRank score).rank = "LEGEND" ↔ 15000 ≤ score) ∧
    (15000 ≤ score → calculateRank score = ⟨"LEGEND", commaFmt score ++ "점"⟩) ∧
    calculateRank 99 = ⟨"BRONZE", "브론즈"⟩ ∧
    calculateRank 100 = ⟨"SILVER", "실버"⟩ ∧
    calculateRank 14999 = ⟨"CHALLENGER", "챌린저"⟩ ∧
    calculateRank 15000 = ⟨"LEGEND", "15,000점"⟩ := by
  refine ⟨?_, ?_, ?_, ?_, ?_, ?_, ?_, ?_, ?_, ?_,
    by decide, by decide, by decide, by decide⟩ <;>
  · simp only [calculateRank]
    split_ifs <;> simp +decide <;> omega

/-- Witness for C1 at score 15000. -/
theorem C1_rank_threshold_table_witness :
    calculateRank 15000 = ⟨"LEGEND", "15,000점"⟩ :=
  ((C1_rank_threshold_table 15000).2.2.2.2.2.2.2.2.2.1 (by decide)).trans (by decide)

/-- C5: for every level L ≥ 0 the success rate is
`max(0.9 - 0.08*L, 0.15)` and the downgrade rate is 0 for L ≤ 1 and
`min(0.03*(L-1), 0.20)` otherwise; in particular
`success_rate 0 = 0.90`, `success_rate 5 = 0.50`,
`success_rate 20 = 0.15`, `downgrade_rate 5 = 0.12`,
`downgrade_rate 100 = 0.20`. -/
theorem C5_enhancement_rates (L : Int) (_hL : 0 ≤ L) :
    successRate L = max (9/10 - (8/100) * (L : ℚ)) (15/100) ∧
    downgradeRate L =
      (if L ≤ 1 then 0 else min ((3/100) * ((L : ℚ) - 1)) (20/100)) ∧
    successRate 0 = 90/100 ∧ successRate 5 = 50/100 ∧ successRate 20 = 15/100 ∧
    downgradeRate 0 = 0 ∧ downgradeRate 1 = 0 ∧
    downgradeRate 5 = 12/100 ∧ downgradeRate 100 = 20/100 := by
  refine ⟨by rw [successRate, mul_comm], by rfl,
    by decide, by decide, by decide, by decide, by decide, by decide, by decide⟩

/-- Witness for C5 at L = 5. -/
theorem C5_enhancement_rates_witness :
    successRate 5 = 50/100 ∧ downgradeRate 5 = 12/100 :=
  ⟨(C5_enhancement_rates 5 (by decide)).2.2.2.1,
   (C5_enhancement_rates 5 (by decide)).2.2.2.2.2.2.2.1⟩

/-- C10: on an empty session list `get_statistics` returns every
aggregate as 0 and puts the localized string "브론즈" into both the
`rank` and `rank_display` fields, bypassing `_calculate_rank`, which
would put the tier code "BRONZE" (≠ "브론즈") into `rank` for score 0. -/
theorem C10_empty_statistics_localized_rank :
    (∀ today : Int, getStatistics [] today =
      ⟨0, 0, 0, 0, 0, 0, 0, 0, "브론즈", "브론즈"⟩) ∧
    (calculateRank 0).rank = "BRONZE" ∧ "브론즈" ≠ "BRONZE" :=
  ⟨fun _ => rfl, by decide, by decide⟩

/-- C9: saving a `ProgressionState` and loading it back through the
slot-merge loader reproduces the state exactly (in particular the same
points, stage, scrolls and per-slot enhancement and base_power), and a
persisted file with all three inventory slots absent loads them as the
compiled-in defaults (book base 10, pencil base 7, laptop base 15). -/
theorem C9_persistence_round_trip (st : ProgressionState) :
    loadState (saveState st) = st ∧
    (∀ raw : SavedState, raw.inv_book = none → raw.inv_pencil = none →
      raw.inv_laptop = none →
      (loadState raw).book = defaultInventory.1 ∧
      (loadState raw).pencil = defaultInventory.2.1 ∧
      (loadState raw).laptop = defaultInventory.2.2 ∧
      (loadState raw).book.base_power = 10 ∧
      (loadState raw).pencil.base_power = 7 ∧
      (loadState raw).laptop.base_power = 15) := by
  refine ⟨rfl, fun raw hb hp hl => ?_⟩
  simp [loadState, hb, hp, hl, mergeSlot, emptySavedEquip, defaultInventory]

/-- Witness for C9: round trip on the fresh-install state and defaults
for a file persisted with no inventory key. -/
theorem C9_persistence_round_trip_witness :
    loadState (saveState initManager.state) = initManager.state ∧
    (loadState ⟨some 3, some 2, some 1, none, none, none⟩).book =
      defaultInventory.1 :=
  ⟨(C9_persistence_round_trip initManager.state).1,
   ((C9_persistence_round_trip initManager.state).2
      ⟨some 3, some 2, some 1, none, none, none⟩ rfl rfl rfl).1⟩

/-- `setInv` never changes the scalar fields of the state. -/
theorem setInv_scalars (st : ProgressionState) (slot : String) (e : Equipment) :
    (setInv st slot e).points = st.points ∧ (setInv st slot e).stage = st.stage ∧
    (setInv st slot e).scrolls = st.scrolls := by
  simp only [setInv]
  split_ifs <;> exact ⟨rfl, rfl, rfl⟩

/-- C4: `enhance` returns the `None` sentinel and leaves the manager
(state and battle) completely unchanged when the slot is unknown or
`scrolls ≤ 0`; when the slot is known and `scrolls > 0` it decrements
`scrolls` by exactly 1 and returns a result, for every outcome of the
two random rolls. -/
theorem C4_enhance_scroll_consumption (m : Manager) (slot : String) (r1 r2 : ℚ) :
    (lookupInv m.state slot = none ∨ m.state.scrolls ≤ 0 →
      enhance slot r1 r2 m = (m, none)) ∧
    (lookupInv m.state slot ≠ none → 0 < m.state.scrolls →
      (enhance slot r1 r2 m).1.state.scrolls = m.state.scrolls - 1 ∧
      (enhance slot r1 r2 m).2 ≠ none) := by
  constructor
  · rintro (hl | hs)
    · simp [enhance, hl]
    · rcases he : lookupInv m.state slot with - | item
      · simp [enhance, he]
      · simp [enhance, he, hs]
  · intro hl hs
    rcases he : lookupInv m.state slot with - | item
    · exact absurd he hl
    · have hns : ¬ m.state.scrolls ≤ 0 := by omega
      refine ⟨?_, ?_⟩ <;>
        simp [enhance, he, hns, (setInv_scalars _ slot _).2.2]

/-- Witness for C4: with 0 scrolls `enhance` is a no-op returning none;
with 2 scrolls it consumes exactly one and returns a result. -/
theorem C4_enhance_scroll_consumption_witness :
    enhance "book" 1 1 initManager = (initManager, none) ∧
    ((enhance "book" (1/2) 1
        { initManager with
          state := { initManager.state with scrolls := 2 } }).1.state.scrolls =
      ({ initManager with
          state := { initManager.state with scrolls := 2 } } : Manager).state.scrolls - 1 ∧
      (enhance "book" (1/2) 1
        { initManager with
          state := { initManager.state with scrolls := 2 } }).2 ≠ none) :=
  ⟨(C4_enhance_scroll_consumption initManager "book" 1 1).1 (Or.inr (by decide)),
   (C4_enhance_scroll_consumption
      { initManager with state := { initManager.state with scrolls := 2 } }
      "book" (1/2) 1).2 (by decide) (by decide)⟩

/-- C6 as stated is false: the code clamps each summand of `earned` at
0, while the claim's formula `(tfm // 5) + cc*3 + cc*(fd // 25)` does
not; at `total_focus_minutes = -3`, `completed_cycles = 1`,
`focus_duration = 0` the code returns 3 but the claimed formula gives
`(-3 // 5) + 3 + 0 = 2`. -/
theorem C6_counterexample :
    (grantPointsFromSession (-3) 1 0 initManager).2 = 3 ∧
    (-3 : Int).fdiv 5 + 1 * 3 + 1 * ((0 : Int).fdiv 25) = 2 ∧
    (3 : Int) ≠ 2 := by decide

/-- C6 amended: `grant_points_from_session` returns 0 and leaves the
state unchanged when both `total_focus_minutes ≤ 0` and
`completed_cycles ≤ 0`; otherwise it returns
`earned = max(tfm // 5, 0) + max(cc, 0) * 3 + max(cc, 0) * max(fd // 25, 0)`
(each summand clamped at 0) and adds exactly `earned` to `points`. -/
theorem C6_grant_points_amended (m : Manager) (tfm cc fd : Int) :
    (tfm ≤ 0 ∧ cc ≤ 0 → grantPointsFromSession tfm cc fd m = (m, 0)) ∧
    (¬ (tfm ≤ 0 ∧ cc ≤ 0) →
      (grantPointsFromSession tfm cc fd m).2 =
        max (tfm.fdiv 5) 0 + max cc 0 * 3 + max cc 0 * max (fd.fdiv 25) 0 ∧
      (grantPointsFromSession tfm cc fd m).1.state.points =
        m.state.points +
          (max (tfm.fdiv 5) 0 + max cc 0 * 3 + max cc 0 * max (fd.fdiv 25) 0)) := by
  constructor
  · intro h
    simp [grantPointsFromSession, h]
  · intro h
    simp [grantPointsFromSession, h]

/-- Witness for C6 amended at (-1, -1) and (7, 2, 30). -/
theorem C6_grant_points_amended_witness :
    grantPointsFromSession (-1) (-1) 0 initManager = (initManager, 0) ∧
    (grantPointsFromSession 7 2 30 initManager).2 =
      max ((7 : Int).fdiv 5) 0 + max 2 0 * 3 + max 2 0 * max ((30 : Int).fdiv 25) 0 :=
  ⟨(C6_grant_points_amended initManager (-1) (-1) 0).1 (by decide),
   ((C6_grant_points_amended initManager 7 2 30).2 (by decide)).1⟩

/-- C3 as stated is false: `get_statistics` computes its `total_cycles`
field by summing the records' `completed_cycles` values
(session_manager.py line 106), not their `total_cycles` values; a single
session with `total_cycles = 2` and `completed_cycles = 1` yields
statistics `total_cycles = 1`, not 2. -/
theorem C3_counterexample :
    (getStatistics [⟨0, 2, 1, none⟩] 0).total_cycles = 1 ∧
    (([⟨0, 2, 1, none⟩] : List Session).map Session.total_cycles).sum = 2 ∧
    (1 : Int) ≠ 2 := by decide

/-- C3 amended: on a non-empty session list `get_statistics` returns
`total_sessions` = number of records, `total_focus_minutes` = sum of the
records' `total_focus_minutes`, `completed_sessions` = count of records
with `completed_cycles = total_cycles`, and `total_cycles` = sum of the
records' `completed_cycles` fields (not their `total_cycles` fields). -/
theorem C3_statistics_aggregates_amended (sessions : List Session) (today : Int)
    (h : sessions ≠ []) :
    (getStatistics sessions today).total_sessions = sessions.length ∧
    (getStatistics sessions today).total_focus_minutes =
      (sessions.map Session.total_focus_minutes).sum ∧
    (getStatistics sessions today).completed_sessions =
      (sessions.filter (fun s => s.completed_cycles = s.total_cycles)).length ∧
    (getStatistics sessions today).total_cycles =
      (sessions.map Session.completed_cycles).sum := by
  simp [getStatistics, h]

/-- Witness for C3 amended on a two-session list. -/
theorem C3_statistics_aggregates_amended_witness :
    (getStatistics [⟨25, 2, 2, some 0⟩, ⟨10, 3, 1, some 1⟩] 1).total_sessions =
      ([⟨25, 2, 2, some 0⟩, ⟨10, 3, 1, some 1⟩] : List Session).length ∧
    (getStatistics [⟨25, 2, 2, some 0⟩, ⟨10, 3, 1, some 1⟩] 1).total_cycles =
      (([⟨25, 2, 2, some 0⟩, ⟨10, 3, 1, some 1⟩] : List Session).map
        Session.completed_cycles).sum :=
  ⟨(C3_statistics_aggregates_amended _ 1 (by decide)).1,
   (C3_statistics_aggregates_amended _ 1 (by decide)).2.2.2⟩

/-- Invariant of the in-memory battle state: the hit counter never
exceeds the limit, the limit is the constant 10, and the remaining HP is
an exact multiple of 1/10 (it starts as an integer and every damage
value is rounded to one decimal). -/
def BattleInv (b : Option BattleState) : Prop :=
  ∀ bs ∈ b, bs.hits_used ≤ bs.limit ∧ bs.limit = 10 ∧
    ∃ k : Int, bs.remaining_hp = (k : ℚ) / 10

/-- `pyRound _ 1` always produces a multiple of 1/10. -/
theorem pyRound_one_shape (q : ℚ) : ∃ k : Int, pyRound q 1 = (k : ℚ) / 10 :=
  ⟨pyRoundInt (q * 10 ^ 1), by rw [pyRound]; norm_num⟩

/-- `pyRound _ 1` is the identity on multiples of 1/10. -/
theorem pyRound_one_fixed (k : Int) : pyRound ((k : ℚ) / 10) 1 = (k : ℚ) / 10 := by
  have h1 : (k : ℚ) / 10 * 10 ^ 1 = (k : ℚ) := by
    field_simp
  have h2 : pyRoundInt (k : ℚ) = k := by
    have hf : Rat.floor (k : ℚ) = k := by
      rw [Rat.floor, if_pos (Rat.den_intCast k), Rat.num_intCast]
    simp [pyRoundInt, hf]
  rw [pyRound, h1, h2]
  norm_num

/-- `freshBattle` satisfies the battle invariant's per-battle facts,
with an unused hit counter. -/
theorem freshBattle_spec (st : ProgressionState) :
    (freshBattle st).hits_used = 0 ∧ (freshBattle st).limit = 10 ∧
    ∃ k : Int, (freshBattle st).remaining_hp = (k : ℚ) / 10 := by
  refine ⟨rfl, rfl, ⟨stageHp (st.stage + 1) * 10, ?_⟩⟩
  show ((stageHp (st.stage + 1) : ℚ)) = ((stageHp (st.stage + 1) * 10 : Int) : ℚ) / 10
  push_cast
  ring

/-- After the restart check of `hit_stage_battle` the active battle has
a strictly unexhausted hit counter and satisfies the invariant facts. -/
theorem ensureBattle_spec (m : Manager) (hm : BattleInv m.battle) :
    (ensureBattle m).hits_used < (ensureBattle m).limit ∧
    (ensureBattle m).limit = 10 ∧
    ∃ k : Int, (ensureBattle m).remaining_hp = (k : ℚ) / 10 := by
  rcases hb : m.battle with - | b
  · rcases freshBattle_spec m.state with ⟨h0, h10, hk⟩
    simp only [ensureBattle, hb]
    exact ⟨by omega, h10, hk⟩
  · rcases hm b (by rw [hb]; rfl) with ⟨hle, h10, hk⟩
    simp only [ensureBattle, hb]
    split_ifs with hcond
    · rcases freshBattle_spec m.state with ⟨h0, h10f, hkf⟩
      exact ⟨by omega, h10f, hkf⟩
    · exact ⟨by omega, h10, hk⟩

/-- The result returned by `hit_stage_battle` (the same record is
returned on every path), expressed through `ensureBattle`. -/
theorem hitStageBattle_result (f : ℚ) (m : Manager) :
    (hitStageBattle f m).2 =
      { success := (ensureBattle m).remaining_hp - pyRound (totalPower m.state * f) 1 ≤ 0
        finished := ((ensureBattle m).remaining_hp - pyRound (totalPower m.state * f) 1 ≤ 0) ∨
          (ensureBattle m).limit ≤ (ensureBattle m).hits_used + 1
        target_stage := (ensureBattle m).target_stage
        hp := (ensureBattle m).hp
        remaining_hp :=
          pyRound ((ensureBattle m).remaining_hp - pyRound (totalPower m.state * f) 1) 1
        hit_index := (ensureBattle m).hits_used + 1
        hit_damage := pyRound (totalPower m.state * f) 1
        factor := pyRound f 3
        total_power := totalPower m.state
        hits_used := (ensureBattle m).hits_used + 1
        limit := (ensureBattle m).limit } := by
  rw [hitStageBattle]
  split_ifs <;> rfl

/-- The state left by `hit_stage_battle`: battle cleared when finished,
otherwise the battle updated with one more hit and the damage applied. -/
theorem hitStageBattle_state (f : ℚ) (m : Manager) :
    ((hitStageBattle f m).2.finished = true → (hitStageBattle f m).1.battle = none) ∧
    ((hitStageBattle f m).2.finished = false →
      (hitStageBattle f m).1.battle = some
        { ensureBattle m with
          hits_used := (ensureBattle m).hits_used + 1
          remaining_hp :=
            (ensureBattle m).remaining_hp - pyRound (totalPower m.state * f) 1
          log := (ensureBattle m).log ++
            [{ hit := (ensureBattle m).hits_used + 1
               damage := pyRound (totalPower m.state * f) 1
               factor := pyRound f 3 }] }) := by
  rw [hitStageBattle]
  constructor <;> intro hfin <;> revert hfin <;> split_ifs with h1 h2 <;>
    simp_all

/-- C8: the battle invariant `hits_used ≤ limit` (with `limit = 10`)
holds initially and is preserved by every operation; each
`hit_stage_battle` call returns `hits_used` exactly one more than the
(possibly freshly restarted) battle it hits; the returned `finished`
flag is true exactly when the remaining HP is ≤ 0 or `hits_used` hits
the limit; and after any finished hit `get_battle_status` reports no
battle in progress. -/
theorem C8_battle_hit_invariants :
    BattleInv initManager.battle ∧
    ∀ m : Manager, BattleInv m.battle →
      (∀ a, BattleInv (addPoints a m).1.battle) ∧
      (∀ tfm cc fd, BattleInv (grantPointsFromSession tfm cc fd m).1.battle) ∧
      (∀ q c, BattleInv (buyScroll q c m).1.battle) ∧
      (∀ slot r1 r2, BattleInv (enhance slot r1 r2 m).1.battle) ∧
      BattleInv (tryAutoAdvance m).1.battle ∧
      BattleInv (startStageBattle m).1.battle ∧
      ∀ f : ℚ,
        BattleInv (hitStageBattle f m).1.battle ∧
        (hitStageBattle f m).2.hits_used = (ensureBattle m).hits_used + 1 ∧
        (hitStageBattle f m).2.hits_used ≤ (hitStageBattle f m).2.limit ∧
        ((hitStageBattle f m).2.finished = true ↔
          (hitStageBattle f m).2.remaining_hp ≤ 0 ∨
            (hitStageBattle f m).2.hits_used = (hitStageBattle f m).2.limit) ∧
        ((hitStageBattle f m).2.finished = true →
          (getBattleStatus (hitStageBattle f m).1).in_progress = false) := by
  constructor
  · intro bs hbs
    simp [initManager] at hbs
  intro m hm
  obtain ⟨hlt, h10, k, hk⟩ := ensureBattle_spec m hm
  refine ⟨?_, ?_, ?_, ?_, ?_, ?_, ?_⟩
  · intro a
    have hb : (addPoints a m).1.battle = m.battle := by
      rw [addPoints]; split_ifs <;> rfl
    rw [hb]; exact hm
  · intro tfm cc fd
    have hb : (grantPointsFromSession tfm cc fd m).1.battle = m.battle := by
      rw [grantPointsFromSession]; split_ifs <;> rfl
    rw [hb]; exact hm
  · intro q c
    have hb : (buyScroll q c m).1.battle = m.battle := by
      simp only [buyScroll]
      split_ifs <;> rfl
    rw [hb]; exact hm
  · intro slot r1 r2
    have hb : (enhance slot r1 r2 m).1.battle = m.battle := by
      rcases he : lookupInv m.state slot with - | item
      · simp [enhance, he]
      · simp only [enhance, he]
        split_ifs <;> rfl
    rw [hb]; exact hm
  · have hb : (tryAutoAdvance m).1.battle = m.battle := by
      rw [tryAutoAdvance]; split_ifs <;> rfl
    rw [hb]; exact hm
  · intro bs hbs
    have hbs2 : freshBattle m.state = bs := by
      simpa [startStageBattle] using hbs
    rcases freshBattle_spec m.state with ⟨h0, h10f, hkf⟩
    rw [← hbs2]
    exact ⟨by omega, h10f, hkf⟩
  · intro f
    obtain ⟨kd, hkd⟩ := pyRound_one_shape (totalPower m.state * f)
    have hrem : (ensureBattle m).remaining_hp - pyRound (totalPower m.state * f) 1
        = ((k - kd : Int) : ℚ) / 10 := by
      rw [hk, hkd]; push_cast; ring
    have hfix := pyRound_one_fixed (k - kd)
    refine ⟨?_, ?_, ?_, ?_, ?_⟩
    · cases hfin : (hitStageBattle f m).2.finished with
      | true =>
        have hb := (hitStageBattle_state f m).1 hfin
        intro bs hbs
        rw [hb] at hbs
        simp at hbs
      | false =>
        have hb := (hitStageBattle_state f m).2 hfin
        intro bs hbs
        rw [hb] at hbs
        simp only [Option.mem_def, Option.some_inj] at hbs
        subst hbs
        exact ⟨by simpa using hlt, by simpa using h10,
          ⟨k - kd, by simpa using hrem⟩⟩
    · rw [hitStageBattle_result]
    · rw [hitStageBattle_result]
      show (ensureBattle m).hits_used + 1 ≤ (ensureBattle m).limit
      omega
    · rw [hitStageBattle_result]
      simp only [decide_eq_true_eq]
      rw [hrem, hfix]
      constructor
      · rintro (h | h)
        · exact Or.inl h
        · exact Or.inr (by omega)
      · rintro (h | h)
        · exact Or.inl h
        · exact Or.inr (by omega)
    · intro hfin
      have hb := (hitStageBattle_state f m).1 hfin
      simp [getBattleStatus, hb]

/-- Witness for C8 at the fresh-install manager (its battle invariant
is discharged directly: the initial battle state is `None`). -/
theorem C8_battle_hit_invariants_witness :
    (hitStageBattle 1 initManager).2.hits_used = (ensureBattle initManager).hits_used + 1 ∧
    (hitStageBattle 1 initManager).2.hits_used ≤ (hitStageBattle 1 initManager).2.limit :=
  ⟨((C8_battle_hit_invariants.2 initManager
      (fun bs hbs => by simp [initManager] at hbs)).2.2.2.2.2.2 1).2.1,
   ((C8_battle_hit_invariants.2 initManager
      (fun bs hbs => by simp [initManager] at hbs)).2.2.2.2.2.2 1).2.2.1⟩

/-- The advancing loop of `try_auto_advance` never lowers the stage. -/
theorem advanceLoop_le (tp : ℚ) : ∀ (fuel : ℕ) (s : Int), s ≤ advanceLoop tp fuel s
  | 0, s => le_refl s
  | fuel + 1, s => by
    rw [advanceLoop]
    split_ifs
    · exact le_trans (by omega) (advanceLoop_le tp fuel (s + 1))
    · exact le_refl s

/-- The battle `hit_stage_battle` actually hits targets at least the
current stage, provided any already-active battle does. -/
theorem ensureBattle_target (m : Manager)
    (hb : ∀ bs ∈ m.battle, m.state.stage ≤ bs.target_stage) :
    m.state.stage ≤ (ensureBattle m).target_stage := by
  rcases hob : m.battle with - | b
  · simp only [ensureBattle, hob, freshBattle]
    omega
  · simp only [ensureBattle, hob]
    split_ifs
    · simp only [freshBattle]
      omega
    · exact hb b (by rw [hob]; rfl)

/-- `hit_stage_battle` leaves the stage alone or moves it to the active
battle's target stage. -/
theorem hitStageBattle_stage (f : ℚ) (m : Manager) :
    (hitStageBattle f m).1.state.stage = m.state.stage ∨
    (hitStageBattle f m).1.state.stage = (ensureBattle m).target_stage := by
  rw [hitStageBattle]
  split_ifs
  · exact Or.inr rfl
  · exact Or.inl rfl
  · exact Or.inl rfl

/-- C2 amended: the stage never decreases under `add_points`,
`grant_points_from_session`, `buy_scroll`, `enhance`,
`try_auto_advance` and `start_stage_battle`; `hit_stage_battle` never
decreases it either, provided any active battle's `target_stage` is at
least the current stage (true in particular when no battle is active, or
when the stage has not been raised since the battle started).  Without
that proviso a hit can lower the stage — see the counterexample. -/
theorem C2_stage_monotone_amended (m : Manager) :
    (∀ a, m.state.stage ≤ (addPoints a m).1.state.stage) ∧
    (∀ tfm cc fd, m.state.stage ≤ (grantPointsFromSession tfm cc fd m).1.state.stage) ∧
    (∀ q c, m.state.stage ≤ (buyScroll q c m).1.state.stage) ∧
    (∀ slot r1 r2, m.state.stage ≤ (enhance slot r1 r2 m).1.state.stage) ∧
    m.state.stage ≤ (tryAutoAdvance m).1.state.stage ∧
    m.state.stage ≤ (startStageBattle m).1.state.stage ∧
    (∀ f, (∀ bs ∈ m.battle, m.state.stage ≤ bs.target_stage) →
      m.state.stage ≤ (hitStageBattle f m).1.state.stage) := by
  refine ⟨?_, ?_, ?_, ?_, ?_, le_refl _, ?_⟩
  · intro a
    have he : (addPoints a m).1.state.stage = m.state.stage := by
      rw [addPoints]; split_ifs <;> rfl
    omega
  · intro tfm cc fd
    have he : (grantPointsFromSession tfm cc fd m).1.state.stage = m.state.stage := by
      rw [grantPointsFromSession]; split_ifs <;> rfl
    omega
  · intro q c
    have he : (buyScroll q c m).1.state.stage = m.state.stage := by
      simp only [buyScroll]
      split_ifs <;> rfl
    omega
  · intro slot r1 r2
    have he : (enhance slot r1 r2 m).1.state.stage = m.state.stage := by
      rcases hl : lookupInv m.state slot with - | item
      · simp [enhance, hl]
      · simp only [enhance, hl]
        split_ifs <;> first | rfl | exact (setInv_scalars _ slot _).2.1
    omega
  · have he := advanceLoop_le (totalPower m.state)
      ((totalPower m.state).ceil.toNat + 1) m.state.stage
    rw [tryAutoAdvance]
    split_ifs
    · exact le_refl _
    · simpa using he
  · intro f hb
    rcases hitStageBattle_stage f m with hs | hs
    · omega
    · rw [hs]
      exact ensureBattle_target m hb

/-- Witness for C2 amended: a hit from the fresh-install manager (no
active battle) cannot lower the stage. -/
theorem C2_stage_monotone_amended_witness :
    initManager.state.stage ≤ (hitStageBattle 1 initManager).1.state.stage ∧
    initManager.state.stage ≤ (tryAutoAdvance initManager).1.state.stage :=
  ⟨(C2_stage_monotone_amended initManager).2.2.2.2.2.2 1
      (fun bs hbs => by simp [initManager] at hbs),
   (C2_stage_monotone_amended initManager).2.2.2.2.1⟩

set_option maxRecDepth 8000 in
/-- C2 as stated is false: from the fresh-install state, the operation
sequence of `c2TraceManager` reaches stage 3 with a still-active battle
whose `target_stage` is 2; the next `hit_stage_battle` (damage factor 1)
finishes that battle successfully and sets the stage back to 2 — a
single operation after which the stage has decreased. -/
theorem C2_counterexample :
    c2TraceManager.state.stage = 3 ∧
    (hitStageBattle 1 c2TraceManager).1.state.stage = 2 := by decide

/-- Shrinking the filter bound by one day removes exactly the day
itself. -/
theorem filter_le_sub_one (s : Finset Int) (d : Int) :
    s.filter (fun x => x ≤ d - 1) = (s.filter (fun x => x ≤ d)).erase d := by
  ext x
  simp only [Finset.mem_filter, Finset.mem_erase]
  constructor
  · rintro ⟨hx, hle⟩
    exact ⟨by omega, hx, by omega⟩
  · rintro ⟨hne, hx, hle⟩
    exact ⟨hx, by omega⟩

/-- The backward walk counts at most the days that lie at or below its
starting point. -/
theorem specCountBack_le (s : Finset Int) (d : Int) :
    specCountBack s d ≤ (s.filter (fun x => x ≤ d)).card := by
  suffices h : ∀ (n : ℕ) (d : Int), (s.filter (fun x => x ≤ d)).card ≤ n →
      specCountBack s d ≤ (s.filter (fun x => x ≤ d)).card from h _ d (le_refl _)
  intro n
  induction n with
  | zero =>
    intro d hd
    rw [specCountBack]
    split_ifs with h
    · have hmem : d ∈ s.filter (fun x => x ≤ d) := Finset.mem_filter.mpr ⟨h, le_refl d⟩
      have hpos := Finset.card_pos.mpr ⟨d, hmem⟩
      omega
    · simp
  | succ n ih =>
    intro d hd
    rw [specCountBack]
    split_ifs with h
    · have hmem : d ∈ s.filter (fun x => x ≤ d) := Finset.mem_filter.mpr ⟨h, le_refl d⟩
      have hpos := Finset.card_pos.mpr ⟨d, hmem⟩
      have hcard : (s.filter (fun x => x ≤ d - 1)).card =
          (s.filter (fun x => x ≤ d)).card - 1 := by
        rw [filter_le_sub_one, Finset.card_erase_of_mem hmem]
      have h1 := ih (d - 1) (by omega)
      omega
    · simp

/-- The code's streak loop, run below `today` with enough fuel, adds the
spec's backward count to its accumulator. -/
theorem streakLoop_spec (dates : List Int) (today : Int) :
    ∀ (fuel : ℕ) (check : Int) (streak : ℕ), check < today →
      specCountBack dates.toFinset check + 1 ≤ fuel →
      streakLoop dates today fuel check streak =
        streak + specCountBack dates.toFinset check := by
  intro fuel
  induction fuel with
  | zero =>
    intro check streak hlt hfuel
    omega
  | succ fuel ih =>
    intro check streak hlt hfuel
    rw [streakLoop]
    by_cases h : check ∈ dates
    · rw [if_pos h]
      have hcb : specCountBack dates.toFinset check =
          1 + specCountBack dates.toFinset (check - 1) := by
        rw [specCountBack, dif_pos (List.mem_toFinset.mpr h)]
      rw [ih (check - 1) (streak + 1) (by omega) (by omega)]
      omega
    · rw [if_neg h, if_neg (by omega : ¬ check = today)]
      have hcb : specCountBack dates.toFinset check = 0 := by
        rw [specCountBack, dif_neg (by simpa using h)]
      omega

/-- The code's current-streak computation coincides with the spec's
backward-walk description. -/
theorem currentStreak_eq (dates : List Int) (today : Int) :
    streakLoop dates today (dates.length + 2) today 0 =
      specCurrentStreak dates today := by
  have hbound : specCountBack dates.toFinset (today - 1) ≤ dates.length :=
    le_trans (specCountBack_le _ _)
      (le_trans (Finset.card_filter_le _ _) dates.toFinset_card_le)
  show streakLoop dates today (dates.length + 1 + 1) today 0 = _
  rw [streakLoop]
  by_cases h : today ∈ dates
  · rw [if_pos h,
      streakLoop_spec dates today (dates.length + 1) (today - 1) 1 (by omega) (by omega),
      specCurrentStreak, if_pos h]
  · rw [if_neg h, if_pos rfl,
      streakLoop_spec dates today (dates.length + 1) (today - 1) 0 (by omega) (by omega),
      specCurrentStreak, if_neg h]
    omega

/-- The first run recorded by `specRunLens` is at least its seed. -/
theorem specRunLens_head_le : ∀ (rest : List Int) (prev : Int) (n : ℕ),
    n ≤ (specRunLens rest prev n).foldr max 0
  | [], prev, n => by
    rw [specRunLens]
    simp
  | d :: rest, prev, n => by
    rw [specRunLens]
    split_ifs
    · exact le_trans (by omega) (specRunLens_head_le rest d (n + 1))
    · simp only [List.foldr_cons]
      exact le_max_left _ _

/-- The code's longest-streak fold computes the maximum of its best-so-
far accumulator and the remaining run lengths. -/
theorem longestLoop_spec : ∀ (rest : List Int) (prev : Int) (temp longest : ℕ),
    1 ≤ longest → temp ≤ longest →
    longestLoop rest prev temp longest =
      max longest ((specRunLens rest prev temp).foldr max 0)
  | [], prev, temp, longest => by
    intro h1 ht
    rw [longestLoop, specRunLens]
    simp only [List.foldr_cons, List.foldr_nil]
    rw [max_eq_left (Nat.zero_le temp), max_eq_left ht]
  | d :: rest, prev, temp, longest => by
    intro h1 ht
    rw [longestLoop, specRunLens]
    by_cases hd : d - prev = 1
    · rw [if_pos hd, if_pos (by omega : d = prev + 1),
        longestLoop_spec rest d (temp + 1) (max longest (temp + 1))
          (le_trans h1 (le_max_left _ _)) (le_max_right _ _)]
      rw [max_assoc, max_eq_right (specRunLens_head_le rest d (temp + 1))]
    · rw [if_neg hd, if_neg (by omega : ¬ d = prev + 1),
        longestLoop_spec rest d 1 longest h1 h1]
      simp only [List.foldr_cons]
      rw [← max_assoc, max_eq_left ht]

/-- The code's longest-streak computation equals the spec's maximum run
length of consecutive dates. -/
theorem codeLongest_eq : ∀ dates : List Int,
    codeLongest dates = specLongestStreak dates
  | [] => rfl
  | d :: rest => by
    rw [codeLongest, specLongestStreak,
      longestLoop_spec rest d 1 1 (le_refl 1) (le_refl 1)]
    exact max_eq_right (specRunLens_head_le rest d 1)

/-- An empty date set yields a zero current streak in the spec walk. -/
theorem specCurrentStreak_nil (today : Int) : specCurrentStreak [] today = 0 := by
  rw [specCurrentStreak, if_neg (List.not_mem_nil today), specCountBack]
  simp

/-- C7: for every session list and every value of "today", the
`current_streak` computed by `get_statistics` equals the spec's
backward walk from today (a missing today does not break the walk) and
`longest_streak` equals the maximum run length of consecutive dates in
the sorted distinct-date set; on sessions dated day 0, 1 and 2 with
today = 2 both streaks are 3, and adding a session on day 4 leaves the
longest streak at 3. -/
theorem C7_streak_algorithm (sessions : List Session) (today : Int) :
    ((getStatistics sessions today).current_streak =
      specCurrentStreak (sessionDates sessions) today) ∧
    ((getStatistics sessions today).longest_streak =
      specLongestStreak (sessionDates sessions)) ∧
    (getStatistics [⟨25, 4, 4, some 0⟩, ⟨25, 4, 4, some 1⟩,
      ⟨25, 4, 4, some 2⟩] 2).current_streak = 3 ∧
    (getStatistics [⟨25, 4, 4, some 0⟩, ⟨25, 4, 4, some 1⟩,
      ⟨25, 4, 4, some 2⟩] 2).longest_streak = 3 ∧
    (getStatistics [⟨25, 4, 4, some 0⟩, ⟨25, 4, 4, some 1⟩,
      ⟨25, 4, 4, some 2⟩, ⟨25, 4, 4, some 4⟩] 2).longest_streak = 3 := by
  refine ⟨?_, ?_, by decide, by decide, by decide⟩
  · by_cases h : sessions = []
    · subst h
      show (0 : ℕ) = specCurrentStreak (sessionDates []) today
      rw [show sessionDates [] = [] from rfl, specCurrentStreak_nil]
    · simp only [getStatistics, if_neg h]
      split_ifs with hd
      · rw [hd, specCurrentStreak_nil]
      · exact currentStreak_eq (sessionDates sessions) today
  · by_cases h : sessions = []
    · subst h
      show (0 : ℕ) = specLongestStreak (sessionDates [])
      rw [show sessionDates [] = [] from rfl]
      rfl
    · simp only [getStatistics, if_neg h]
      split_ifs with hd
      · rw [hd]
        rfl
      · exact codeLongest_eq (sessionDates sessions)

end StudyWith
